import Mathlib

/-!
Verification of `vispy/visuals/line.py` (the line-strip visual and its two
shader input components) against its natural-language specification.

The file shallowly embeds the stateful Python code: numpy arrays become an
explicit shape plus payload, Python objects with identity become heap cells
addressed by `Nat` ids inside a `World`, and each method of `line.py`
becomes a state-transition function on `World`.  The shader-composition
classes (`Function`, `ModularProgram`, `FunctionChain` from
`..shaders.composite`) and the `gloo` buffer layer are collaborators whose
sources are not part of this snapshot; their behavior is modelled from the
specification and marked as such in the doc comments.
-/

set_option autoImplicit false

/-- Shallow model of a numpy float ndarray: an explicit shape plus the
flattened payload (floats modelled as rationals).  Only the shape drives
control flow in `line.py`; the payload just travels into bindings. -/
structure NDArray where
  shape : List Nat
  data : List ℚ
  deriving DecidableEq, Inhabited

/-- Python `arr.shape[-1]`, the trailing dimension. -/
def NDArray.lastDim (a : NDArray) : Nat := a.shape.getLastD 0

/-- Python `len(arr)`, the first dimension. -/
def NDArray.len (a : NDArray) : Nat := a.shape.headD 0

/-- A color option as supplied by the caller: either a plain tuple/list of
components, or a numpy ndarray (`line.py` line 184 distinguishes the two
with `isinstance(color, np.ndarray)`). -/
inductive PyColor
  | tup (vals : List ℚ)
  | arr (a : NDArray)
  deriving DecidableEq, Inhabited

/-- The test `color_is_array = isinstance(color, np.ndarray) and
color.ndim > 1` of `line.py` line 184. -/
def colorIsArray : PyColor → Bool
  | .arr a => decide (1 < a.shape.length)
  | .tup _ => false

/-- Python `np.array(color)` as used on `line.py` line 307: a tuple of
length k becomes a 1-d array of shape [k]; an ndarray stays as it is. -/
def npArray : PyColor → NDArray
  | .tup vals => ⟨[vals.length], vals⟩
  | .arr a => a

/-- The structured array built by `LineVisual._build_vbo` (lines 178-194):
a 'pos' field always, and a 'color' field exactly when `color_is_array`.
The vertex buffer (`gloo.VertexBuffer(self._data)`) is identified with the
data it wraps. -/
structure VertexData where
  posCol : NDArray
  colorCol : Option NDArray
  deriving DecidableEq, Inhabited

/-- Lines 181-191 of `line.py`: assemble the structured vertex data from
the stored options.  The 'color' field is added iff
`isinstance(color, np.ndarray) and color.ndim > 1`. -/
def buildData (pos : NDArray) (color : PyColor) : VertexData :=
  { posCol := pos
  , colorCol :=
      match color with
      | .arr a => if 1 < a.shape.length then some a else none
      | .tup _ => none }

/-- The value stored in a shader-variable binding: a named column of the
vertex buffer (`self.visual._vbo['pos']`, line 246, or `..['color']`, line
303), the whole buffer (`self.visual._vbo`, line 250), a scalar constant
(`0.0`, line 247), a numpy-array constant (`np.array(color)`, line 307), or
nothing at all (the bare varying declaration of line 298). -/
inductive BindValue
  | column (buf : VertexData) (field : String)
  | wholeBuffer (buf : VertexData)
  | scalar (x : ℚ)
  | arrConst (a : NDArray)
  | noValue
  deriving DecidableEq, Inhabited

/-- Modelled from the spec (section 4.1): a shader variable carries a kind
('attribute' / 'uniform' / 'varying'), a GLSL type and a value, exactly the
triple passed to `Function.__setitem__` in `line.py`.  The `Function` and
`Variable` classes live in `..shaders.composite`, which is not among this
snapshot's sources. -/
structure Variable where
  kind : String
  typ : String
  value : BindValue
  deriving DecidableEq, Inhabited

/-- Leftmost lookup in an association list. -/
def getAssoc {α : Type} : List (String × α) → String → Option α
  | [], _ => none
  | (k, v) :: rest, s => if k = s then some v else getAssoc rest s

/-- Overwrite-or-append update of an association list. -/
def setAssoc {α : Type} : List (String × α) → String → α → List (String × α)
  | [], s, v => [(s, v)]
  | (k, w) :: rest, s, v =>
      if k = s then (s, v) :: rest else (k, w) :: setAssoc rest s v

/-- Modelled from the spec (sections 3 and 4.3): a ModularProgram keeps
single-slot hook bindings (hook name to Function id, replaced wholesale on
rebind) and chain hooks (hook name to the ordered list of appended
Function ids). -/
structure Program where
  hooks : List (String × Nat)
  chains : List (String × List Nat)
  deriving DecidableEq, Inhabited

/-- Modelled from the spec (section 4.3): `program[hook] = func` binds a
single-slot hook, replacing any previous binding. -/
def Program.setHook (p : Program) (h : String) (fid : Nat) : Program :=
  { p with hooks := setAssoc p.hooks h fid }

/-- Modelled from the spec (sections 4.2 and 4.3): `add_callback` appends a
Function to a chain hook, preserving attachment order. -/
def Program.addCallback (p : Program) (h : String) (fid : Nat) : Program :=
  { p with chains := setAssoc p.chains h ((getAssoc p.chains h).getD [] ++ [fid]) }

/-- Heap id of the class-level `LinePosInputComponent.XYInputFunc`
(lines 228-232): a class attribute, hence one shared object. -/
def xyFunId : Nat := 0

/-- Heap id of the class-level `LinePosInputComponent.XYZInputFunc`
(lines 235-239): a class attribute, hence one shared object. -/
def xyzFunId : Nat := 1

/-- State of one `LineVisual`: the `_opts` dict of lines 91-96 (the
transform option is represented by the Function id that
`transform.shader_map()` yields, modelled from the spec, section 6),
`_data` and `_vbo` (lines 112, 188, 194), the hook state of its
ModularProgram, and the ids of the two Function objects its color
component created in `__init__` (lines 278-290). -/
structure LineVisualState where
  optsPos : Option NDArray
  optsColor : PyColor
  optsWidth : ℚ
  optsTransform : Nat
  dataArr : Option VertexData
  vbo : Option VertexData
  prog : Program
  fragFunId : Nat
  supportFunId : Nat
  deriving DecidableEq, Inhabited

/-- The world: Function objects are heap cells (slot-to-variable-id
binding lists) addressed by id, shader variables are heap cells addressed
by id, and visuals are addressed by index.  This mirrors Python object
identity; in particular the two class-level position Functions are the
fixed cells `xyFunId` and `xyzFunId`. -/
structure World where
  nextVar : Nat
  varDefs : Nat → Option Variable
  nextFun : Nat
  funDefs : Nat → List (String × Nat)
  nextVis : Nat
  visuals : Nat → Option LineVisualState

/-- The initial world: only the two class-level position Functions exist,
with no bindings yet. -/
def world0 : World :=
  { nextVar := 0, varDefs := fun _ => none
  , nextFun := 2, funDefs := fun _ => []
  , nextVis := 0, visuals := fun _ => none }

/-- Apply an update to the visual stored at index i. -/
def World.modifyVisual (w : World) (i : Nat) (f : LineVisualState → LineVisualState) : World :=
  { w with visuals := fun j => if j = i then (w.visuals j).map f else w.visuals j }

/-- Allocate a fresh shader-variable heap cell; returns its id. -/
def World.allocVar (w : World) (v : Variable) : World × Nat :=
  ({ w with
      nextVar := w.nextVar + 1
    , varDefs := fun j => if j = w.nextVar then some v else w.varDefs j }
  , w.nextVar)

/-- Point a Function's slot at a variable id (overwriting any prior
binding for that slot). -/
def World.setFunSlot (w : World) (fid : Nat) (slot : String) (vid : Nat) : World :=
  { w with
      funDefs := fun j =>
        if j = fid then setAssoc (w.funDefs fid) slot vid else w.funDefs j }

/-- Modelled from the spec (section 4.1): `func[slot] = (kind, type, value)`
stores a binding for the slot, overwriting any prior binding; the bound
variable is a fresh heap cell. -/
def World.setSlotNew (w : World) (fid : Nat) (slot : String) (v : Variable) : World :=
  let p := w.allocVar v
  p.1.setFunSlot fid slot p.2

/-- `LineVisual.set_data` (lines 159-176): each argument given as None
leaves the stored option unchanged, each non-None argument overwrites it,
and `self._vbo = None` runs unconditionally. -/
def setData (w : World) (i : Nat) (pos : Option NDArray) (color : Option PyColor)
    (width : Option ℚ) : World :=
  w.modifyVisual i (fun v =>
    { v with
        optsPos := match pos with | some p => some p | none => v.optsPos
      , optsColor := match color with | some c => c | none => v.optsColor
      , optsWidth := match width with | some x => x | none => v.optsWidth
      , vbo := none })

/-- `LineVisual._build_vbo` (lines 178-194): builds `self._data` from the
stored options and wraps it in a vertex buffer.  Accessing
`pos.shape` with `pos is None` would raise, hence the None result in that
case (the `paint` guard prevents it). -/
def buildVbo (w : World) (i : Nat) : Option World :=
  match w.visuals i with
  | none => none
  | some v =>
    match v.optsPos with
    | none => none
    | some p =>
        let d := buildData p v.optsColor
        some (w.modifyVisual i (fun vv => { vv with dataArr := some d, vbo := some d }))

/-- `LinePosInputComponent.update` (lines 241-252): if
`self.visual._data['pos'].shape[-1] == 2`, bind `xy_pos` (attribute vec2,
the buffer's 'pos' column) and `z_pos` (uniform float 0.0) on the shared
XY Function; otherwise bind `xyz_pos` (attribute vec3, the whole buffer)
on the shared XYZ Function; then assign the chosen Function to the
`local_position` hook.  None when `_data`/`_vbo` are missing (attribute
access on None would raise). -/
def posInputUpdate (w : World) (i : Nat) : Option World :=
  match w.visuals i with
  | none => none
  | some v =>
    match v.dataArr, v.vbo with
    | some d, some b =>
        if d.posCol.lastDim = 2 then
          let w1 := w.setSlotNew xyFunId "xy_pos"
            { kind := "attribute", typ := "vec2", value := .column b "pos" }
          let w2 := w1.setSlotNew xyFunId "z_pos"
            { kind := "uniform", typ := "float", value := .scalar 0 }
          some (w2.modifyVisual i (fun vv =>
            { vv with prog := vv.prog.setHook "local_position" xyFunId }))
        else
          let w1 := w.setSlotNew xyzFunId "xyz_pos"
            { kind := "attribute", typ := "vec3", value := .wholeBuffer b }
          some (w1.modifyVisual i (fun vv =>
            { vv with prog := vv.prog.setHook "local_position" xyzFunId }))
    | _, _ => none

/-- `LineColorInputComponent.update` (lines 292-308): when the vertex data
has a 'color' field, declare a fresh varying for the fragment function's
`rgba` slot, assign the fragment function to `frag_color`, append the
support function to the `vert_post_hook` chain, bind its `input` slot to
the buffer's 'color' column (attribute vec4), and bind its `output` slot
to the very variable `self.frag_func['rgba']` holds; otherwise bind `rgba`
to a uniform vec4 holding `np.array(self._opts['color'])` and assign the
fragment function to `frag_color`. -/
def colorInputUpdate (w : World) (i : Nat) : Option World :=
  match w.visuals i with
  | none => none
  | some v =>
    match v.dataArr, v.vbo with
    | some d, some b =>
        if d.colorCol.isSome then
          let w1 := w.setSlotNew v.fragFunId "rgba"
            { kind := "varying", typ := "vec4", value := .noValue }
          let w2 := w1.modifyVisual i (fun vv =>
            { vv with prog := vv.prog.setHook "frag_color" v.fragFunId })
          let w3 := w2.modifyVisual i (fun vv =>
            { vv with prog := vv.prog.addCallback "vert_post_hook" v.supportFunId })
          let w4 := w3.setSlotNew v.supportFunId "input"
            { kind := "attribute", typ := "vec4", value := .column b "color" }
          match getAssoc (w4.funDefs v.fragFunId) "rgba" with
          | some vid => some (w4.setFunSlot v.supportFunId "output" vid)
          | none => none
        else
          let w1 := w.setSlotNew v.fragFunId "rgba"
            { kind := "uniform", typ := "vec4", value := .arrConst (npArray v.optsColor) }
          some (w1.modifyVisual i (fun vv =>
            { vv with prog := vv.prog.setHook "frag_color" v.fragFunId }))
    | _, _ => none

/-- The body of the `if self._vbo is None` block of `paint` (lines
202-207): build the vertex buffer, then run both components' update. -/
def rebuildAll (w : World) (i : Nat) : Option World :=
  match buildVbo w i with
  | none => none
  | some w1 =>
    match posInputUpdate w1 i with
    | none => none
    | some w2 => colorInputUpdate w2 i

/-- Externally visible effects of `paint` (lines 209-213): the
`map_local_to_nd` rebinding, the `gl.glLineWidth` call and the
`self._program.draw` call, in program order. -/
inductive PaintAction
  | bindHook (hook : String) (fid : Nat)
  | setLineWidth (width : ℚ)
  | draw (primitive : String)
  deriving DecidableEq, Inhabited

/-- `LineVisual.paint` (lines 196-213): return early when the stored pos
option is None or empty; rebuild the vertex buffer and re-run both
components when `_vbo` is None; then rebind `map_local_to_nd` to the
transform's shader map, set the line width from the stored width option,
and draw a LINE_STRIP. -/
def paint (w : World) (i : Nat) : Option (World × List PaintAction) :=
  match w.visuals i with
  | none => none
  | some v =>
    match v.optsPos with
    | none => some (w, [])
    | some p =>
        if p.len = 0 then some (w, [])
        else
          match (match v.vbo with | none => rebuildAll w i | some _ => some w) with
          | none => none
          | some w1 =>
            match w1.visuals i with
            | none => none
            | some v1 =>
                some
                  ( w1.modifyVisual i (fun vv =>
                      { vv with prog := vv.prog.setHook "map_local_to_nd" vv.optsTransform })
                  , [ .bindHook "map_local_to_nd" v1.optsTransform
                    , .setLineWidth v1.optsWidth
                    , .draw "LINE_STRIP" ] )

/-- `LineVisual.__init__` (lines 87-113): fresh Function objects for the
color component (lines 280-290), a fresh transform shader-map Function
(modelled from the spec, section 6), the default options dict of lines
91-96, the two declared chains of lines 103-104, and a final
`set_data(pos, color, width)` call. -/
def newLineVisual (w : World) (pos : Option NDArray) (color : Option PyColor)
    (width : Option ℚ) : World :=
  let fragId := w.nextFun
  let supportId := w.nextFun + 1
  let trId := w.nextFun + 2
  let i := w.nextVis
  let v0 : LineVisualState :=
    { optsPos := none
    , optsColor := .tup [1, 1, 1, 1]
    , optsWidth := 1
    , optsTransform := trId
    , dataArr := none
    , vbo := none
    , prog := { hooks := [], chains := [("vert_post_hook", []), ("frag_post_hook", [])] }
    , fragFunId := fragId
    , supportFunId := supportId }
  let w1 : World :=
    { w with
        nextFun := w.nextFun + 3
      , nextVis := w.nextVis + 1
      , visuals := fun j => if j = i then some v0 else w.visuals j }
  setData w1 i pos color width

/-- Observation: the Function id bound to a single-slot hook of visual i. -/
def hookOf (w : World) (i : Nat) (h : String) : Option Nat :=
  match w.visuals i with
  | some v => getAssoc v.prog.hooks h
  | none => none

/-- Observation: the callback list of a chain hook of visual i. -/
def chainOf (w : World) (i : Nat) (h : String) : Option (List Nat) :=
  match w.visuals i with
  | some v => getAssoc v.prog.chains h
  | none => none

/-- Observation: the variable currently bound to a slot of a Function. -/
def slotVar (w : World) (fid : Nat) (slot : String) : Option Variable :=
  match getAssoc (w.funDefs fid) slot with
  | some vid => w.varDefs vid
  | none => none

/-- Observation: the kind of the variable bound to the fragment function's
`rgba` slot of visual i. -/
def rgbaKind (w : World) (i : Nat) : Option String :=
  match w.visuals i with
  | some v => (slotVar w v.fragFunId "rgba").map (fun x => x.kind)
  | none => none

/-- Observation: the value of the variable bound to the fragment
function's `rgba` slot of visual i. -/
def rgbaValue (w : World) (i : Nat) : Option BindValue :=
  match w.visuals i with
  | some v => (slotVar w v.fragFunId "rgba").map (fun x => x.value)
  | none => none

/-- Observation: whether visual i's color support function currently sits
in the `vert_post_hook` chain. -/
def supportInChain (w : World) (i : Nat) : Option Bool :=
  match w.visuals i with
  | some v =>
      some (decide (v.supportFunId ∈ (getAssoc v.prog.chains "vert_post_hook").getD []))
  | none => none

/-- A color input that the docstring of `set_data` (lines 160-165) allows:
a 3- or 4-tuple, a 1-d array of 3 or 4 components, or a per-vertex
(N, 3-4) array. -/
def validColor : PyColor → Bool
  | .tup vals => vals.length == 3 || vals.length == 4
  | .arr a =>
    match a.shape with
    | [k] => k == 3 || k == 4
    | [_, k] => k == 3 || k == 4
    | _ => false

/-- A per-vertex color input: an (N, 3-4)-shaped ndarray, as opposed to a
single fixed tuple. -/
def perVertexColor : PyColor → Bool
  | .arr a => a.shape.length == 2
  | _ => false

/-! ### Association-list and heap lemmas -/

theorem getAssoc_setAssoc_self {α : Type} (l : List (String × α)) (k : String) (v : α) :
    getAssoc (setAssoc l k v) k = some v := by
  induction l with
  | nil => simp [getAssoc, setAssoc]
  | cons hd tl ih =>
      by_cases h : hd.1 = k
      · simp [getAssoc, setAssoc, h]
      · simp [getAssoc, setAssoc, h, ih]

theorem getAssoc_setAssoc_ne {α : Type} (l : List (String × α)) (k k' : String) (v : α)
    (h : k' ≠ k) : getAssoc (setAssoc l k v) k' = getAssoc l k' := by
  induction l with
  | nil =>
      simp only [setAssoc, getAssoc]
      rw [if_neg]
      intro hh
      exact h hh.symm
  | cons hd tl ih =>
      by_cases hk : hd.1 = k
      · subst hk
        simp only [setAssoc, if_pos rfl, getAssoc]
        rw [if_neg (fun hh => h hh.symm), if_neg]
        intro hh
        exact h hh.symm
      · simp only [setAssoc, if_neg hk, getAssoc]
        by_cases hk' : hd.1 = k'
        · simp [hk']
        · simp [hk', ih]

theorem visuals_modifyVisual_self (w : World) (i : Nat) (f : LineVisualState → LineVisualState) :
    (w.modifyVisual i f).visuals i = (w.visuals i).map f := by
  simp [World.modifyVisual]

theorem visuals_modifyVisual_ne (w : World) (i j : Nat) (f : LineVisualState → LineVisualState)
    (h : j ≠ i) : (w.modifyVisual i f).visuals j = w.visuals j := by
  simp [World.modifyVisual, h]

theorem funDefs_modifyVisual (w : World) (i : Nat) (f : LineVisualState → LineVisualState) :
    (w.modifyVisual i f).funDefs = w.funDefs := rfl

theorem varDefs_modifyVisual (w : World) (i : Nat) (f : LineVisualState → LineVisualState) :
    (w.modifyVisual i f).varDefs = w.varDefs := rfl

theorem nextVar_modifyVisual (w : World) (i : Nat) (f : LineVisualState → LineVisualState) :
    (w.modifyVisual i f).nextVar = w.nextVar := rfl

theorem visuals_setSlotNew (w : World) (fid : Nat) (s : String) (v : Variable) :
    (w.setSlotNew fid s v).visuals = w.visuals := rfl

theorem nextVar_setSlotNew (w : World) (fid : Nat) (s : String) (v : Variable) :
    (w.setSlotNew fid s v).nextVar = w.nextVar + 1 := rfl

theorem funDefs_setSlotNew_self (w : World) (fid : Nat) (s : String) (v : Variable) :
    (w.setSlotNew fid s v).funDefs fid = setAssoc (w.funDefs fid) s w.nextVar := by
  simp [World.setSlotNew, World.allocVar, World.setFunSlot]

theorem funDefs_setSlotNew_ne (w : World) (fid g : Nat) (s : String) (v : Variable)
    (h : g ≠ fid) : (w.setSlotNew fid s v).funDefs g = w.funDefs g := by
  simp [World.setSlotNew, World.allocVar, World.setFunSlot, h]

theorem varDefs_setSlotNew_new (w : World) (fid : Nat) (s : String) (v : Variable) :
    (w.setSlotNew fid s v).varDefs w.nextVar = some v := by
  simp [World.setSlotNew, World.allocVar, World.setFunSlot]

theorem varDefs_setSlotNew_old (w : World) (fid j : Nat) (s : String) (v : Variable)
    (h : j ≠ w.nextVar) : (w.setSlotNew fid s v).varDefs j = w.varDefs j := by
  simp [World.setSlotNew, World.allocVar, World.setFunSlot, h]

theorem visuals_setFunSlot (w : World) (fid : Nat) (s : String) (vid : Nat) :
    (w.setFunSlot fid s vid).visuals = w.visuals := rfl

theorem varDefs_setFunSlot (w : World) (fid : Nat) (s : String) (vid : Nat) :
    (w.setFunSlot fid s vid).varDefs = w.varDefs := rfl

theorem funDefs_setFunSlot_self (w : World) (fid : Nat) (s : String) (vid : Nat) :
    (w.setFunSlot fid s vid).funDefs fid = setAssoc (w.funDefs fid) s vid := by
  simp [World.setFunSlot]

theorem funDefs_setFunSlot_ne (w : World) (fid g : Nat) (s : String) (vid : Nat)
    (h : g ≠ fid) : (w.setFunSlot fid s vid).funDefs g = w.funDefs g := by
  simp [World.setFunSlot, h]

/-! ### Branch equations for the three methods -/

theorem buildVbo_eq (w : World) (i : Nat) (v : LineVisualState) (p : NDArray)
    (hv : w.visuals i = some v) (hp : v.optsPos = some p) :
    buildVbo w i = some (w.modifyVisual i (fun vv =>
      { vv with dataArr := some (buildData p v.optsColor)
              , vbo := some (buildData p v.optsColor) })) := by
  simp [buildVbo, hv, hp]

theorem posInputUpdate_dim2_eq (w : World) (i : Nat) (v : LineVisualState)
    (d b : VertexData) (hv : w.visuals i = some v) (hd : v.dataArr = some d)
    (hb : v.vbo = some b) (hdim : d.posCol.lastDim = 2) :
    posInputUpdate w i =
      some (((w.setSlotNew xyFunId "xy_pos"
          { kind := "attribute", typ := "vec2", value := .column b "pos" }).setSlotNew
          xyFunId "z_pos"
          { kind := "uniform", typ := "float", value := .scalar 0 }).modifyVisual i
          (fun vv => { vv with prog := vv.prog.setHook "local_position" xyFunId })) := by
  simp [posInputUpdate, hv, hd, hb, hdim]

theorem posInputUpdate_other_eq (w : World) (i : Nat) (v : LineVisualState)
    (d b : VertexData) (hv : w.visuals i = some v) (hd : v.dataArr = some d)
    (hb : v.vbo = some b) (hdim : ¬ d.posCol.lastDim = 2) :
    posInputUpdate w i =
      some ((w.setSlotNew xyzFunId "xyz_pos"
          { kind := "attribute", typ := "vec3", value := .wholeBuffer b }).modifyVisual i
          (fun vv => { vv with prog := vv.prog.setHook "local_position" xyzFunId })) := by
  simp [posInputUpdate, hv, hd, hb, hdim]

theorem colorInputUpdate_uniform_eq (w : World) (i : Nat) (v : LineVisualState)
    (d b : VertexData) (hv : w.visuals i = some v) (hd : v.dataArr = some d)
    (hb : v.vbo = some b) (hcol : d.colorCol = none) :
    colorInputUpdate w i =
      some ((w.setSlotNew v.fragFunId "rgba"
          { kind := "uniform", typ := "vec4", value := .arrConst (npArray v.optsColor) }).modifyVisual
          i (fun vv => { vv with prog := vv.prog.setHook "frag_color" v.fragFunId })) := by
  simp [colorInputUpdate, hv, hd, hb, hcol]

theorem colorInputUpdate_perVertex_eq (w : World) (i : Nat) (v : LineVisualState)
    (d b : VertexData) (hv : w.visuals i = some v) (hd : v.dataArr = some d)
    (hb : v.vbo = some b) (hcol : d.colorCol.isSome)
    (hne : v.fragFunId ≠ v.supportFunId) :
    colorInputUpdate w i =
      some (((((w.setSlotNew v.fragFunId "rgba"
          { kind := "varying", typ := "vec4", value := .noValue }).modifyVisual i
          (fun vv => { vv with prog := vv.prog.setHook "frag_color" v.fragFunId })).modifyVisual i
          (fun vv => { vv with prog := vv.prog.addCallback "vert_post_hook" v.supportFunId })).setSlotNew
          v.supportFunId "input"
          { kind := "attribute", typ := "vec4", value := .column b "color" }).setFunSlot
          v.supportFunId "output" w.nextVar) := by
  have hlook : getAssoc
      (((((w.setSlotNew v.fragFunId "rgba"
          { kind := "varying", typ := "vec4", value := .noValue }).modifyVisual i
          (fun vv => { vv with prog := vv.prog.setHook "frag_color" v.fragFunId })).modifyVisual i
          (fun vv => { vv with prog := vv.prog.addCallback "vert_post_hook" v.supportFunId })).setSlotNew
          v.supportFunId "input"
          { kind := "attribute", typ := "vec4", value := .column b "color" }).funDefs
        v.fragFunId) "rgba" = some w.nextVar := by
    rw [funDefs_setSlotNew_ne _ _ _ _ _ hne]
    rw [funDefs_modifyVisual, funDefs_modifyVisual]
    rw [funDefs_setSlotNew_self]
    exact getAssoc_setAssoc_self _ _ _
  simp only [colorInputUpdate, hv, hd, hb, hcol, if_true]
  rw [hlook]

/-! ### Coarse composition lemmas -/

theorem posInputUpdate_spec (w : World) (i : Nat) (v : LineVisualState)
    (d b : VertexData) (hv : w.visuals i = some v) (hd : v.dataArr = some d)
    (hb : v.vbo = some b) :
    ∃ w2, posInputUpdate w i = some w2 ∧
      w2.visuals i = some { v with
          prog := v.prog.setHook "local_position"
              (if d.posCol.lastDim = 2 then xyFunId else xyzFunId) } ∧
      (∀ j, j ≠ i → w2.visuals j = w.visuals j) := by
  by_cases hdim : d.posCol.lastDim = 2
  · refine ⟨_, posInputUpdate_dim2_eq w i v d b hv hd hb hdim, ?_, ?_⟩
    · rw [visuals_modifyVisual_self, visuals_setSlotNew, visuals_setSlotNew, hv]
      simp [hdim]
    · intro j hj
      rw [visuals_modifyVisual_ne _ _ _ _ hj, visuals_setSlotNew, visuals_setSlotNew]
  · refine ⟨_, posInputUpdate_other_eq w i v d b hv hd hb hdim, ?_, ?_⟩
    · rw [visuals_modifyVisual_self, visuals_setSlotNew, hv]
      simp [hdim]
    · intro j hj
      rw [visuals_modifyVisual_ne _ _ _ _ hj, visuals_setSlotNew]

theorem colorInputUpdate_spec (w : World) (i : Nat) (v : LineVisualState)
    (d b : VertexData) (hv : w.visuals i = some v) (hd : v.dataArr = some d)
    (hb : v.vbo = some b) (hne : v.fragFunId ≠ v.supportFunId) :
    ∃ w2, colorInputUpdate w i = some w2 ∧
      w2.visuals i = some { v with
          prog :=
            if d.colorCol.isSome then
              (v.prog.setHook "frag_color" v.fragFunId).addCallback "vert_post_hook"
                v.supportFunId
            else v.prog.setHook "frag_color" v.fragFunId } ∧
      (∀ j, j ≠ i → w2.visuals j = w.visuals j) := by
  by_cases hcol : d.colorCol.isSome
  · refine ⟨_, colorInputUpdate_perVertex_eq w i v d b hv hd hb hcol hne, ?_, ?_⟩
    · rw [visuals_setFunSlot, visuals_setSlotNew, visuals_modifyVisual_self,
        visuals_modifyVisual_self, visuals_setSlotNew, hv]
      simp [hcol]
    · intro j hj
      rw [visuals_setFunSlot, visuals_setSlotNew, visuals_modifyVisual_ne _ _ _ _ hj,
        visuals_modifyVisual_ne _ _ _ _ hj, visuals_setSlotNew]
  · have hcol' : d.colorCol = none := by
      cases hcc : d.colorCol
      · rfl
      · rw [hcc] at hcol
        simp at hcol
    refine ⟨_, colorInputUpdate_uniform_eq w i v d b hv hd hb hcol', ?_, ?_⟩
    · rw [visuals_modifyVisual_self, visuals_setSlotNew, hv]
      simp [hcol]
    · intro j hj
      rw [visuals_modifyVisual_ne _ _ _ _ hj, visuals_setSlotNew]

theorem rebuildAll_spec (w : World) (i : Nat) (v : LineVisualState) (p : NDArray)
    (hv : w.visuals i = some v) (hp : v.optsPos = some p)
    (hne : v.fragFunId ≠ v.supportFunId) :
    ∃ w3 pr, rebuildAll w i = some w3 ∧
      w3.visuals i = some { v with
          dataArr := some (buildData p v.optsColor)
        , vbo := some (buildData p v.optsColor)
        , prog := pr } ∧
      getAssoc pr.hooks "frag_color" = some v.fragFunId ∧
      getAssoc pr.hooks "local_position" =
        some (if (buildData p v.optsColor).posCol.lastDim = 2 then xyFunId else xyzFunId) := by
  have hbv := buildVbo_eq w i v p hv hp
  have hvB : (w.modifyVisual i (fun vv =>
      { vv with dataArr := some (buildData p v.optsColor)
              , vbo := some (buildData p v.optsColor) })).visuals i
      = some { v with dataArr := some (buildData p v.optsColor)
                    , vbo := some (buildData p v.optsColor) } := by
    rw [visuals_modifyVisual_self, hv]
    rfl
  obtain ⟨w2, hpos, hvis2, _⟩ :=
    posInputUpdate_spec _ i _ (buildData p v.optsColor) (buildData p v.optsColor) hvB rfl rfl
  obtain ⟨w3, hcolu, hvis3, _⟩ :=
    colorInputUpdate_spec w2 i _ (buildData p v.optsColor) (buildData p v.optsColor) hvis2
      rfl rfl hne
  refine ⟨w3, _, ?_, hvis3, ?_, ?_⟩
  · simp only [rebuildAll, hbv, hpos, hcolu]
  · by_cases hcol : (buildData p v.optsColor).colorCol.isSome
    · rw [if_pos hcol]
      exact getAssoc_setAssoc_self _ _ _
    · rw [if_neg hcol]
      exact getAssoc_setAssoc_self _ _ _
  · by_cases hcol : (buildData p v.optsColor).colorCol.isSome
    · rw [if_pos hcol]
      simp only [Program.addCallback, Program.setHook]
      rw [getAssoc_setAssoc_ne _ "frag_color" "local_position" _ (by decide)]
      exact getAssoc_setAssoc_self _ _ _
    · rw [if_neg hcol]
      simp only [Program.setHook]
      rw [getAssoc_setAssoc_ne _ "frag_color" "local_position" _ (by decide)]
      exact getAssoc_setAssoc_self _ _ _

theorem paint_posNone_eq (w : World) (i : Nat) (v : LineVisualState)
    (hv : w.visuals i = some v) (hp : v.optsPos = none) :
    paint w i = some (w, []) := by
  simp [paint, hv, hp]

theorem paint_empty_eq (w : World) (i : Nat) (v : LineVisualState) (p : NDArray)
    (hv : w.visuals i = some v) (hp : v.optsPos = some p) (hlen : p.len = 0) :
    paint w i = some (w, []) := by
  simp [paint, hv, hp, hlen]

theorem paint_vboSome_eq (w : World) (i : Nat) (v : LineVisualState) (p : NDArray)
    (b : VertexData) (hv : w.visuals i = some v) (hp : v.optsPos = some p)
    (hlen : ¬ p.len = 0) (hvbo : v.vbo = some b) :
    paint w i = some
      ( w.modifyVisual i (fun vv =>
          { vv with prog := vv.prog.setHook "map_local_to_nd" vv.optsTransform })
      , [ .bindHook "map_local_to_nd" v.optsTransform
        , .setLineWidth v.optsWidth
        , .draw "LINE_STRIP" ] ) := by
  simp [paint, hv, hp, hlen, hvbo]

theorem paint_rebuild_spec (w : World) (i : Nat) (v : LineVisualState) (p : NDArray)
    (hv : w.visuals i = some v) (hp : v.optsPos = some p) (hlen : ¬ p.len = 0)
    (hvbo : v.vbo = none) (hne : v.fragFunId ≠ v.supportFunId) :
    ∃ w3 pr,
      rebuildAll w i = some w3 ∧
      w3.visuals i = some { v with
          dataArr := some (buildData p v.optsColor)
        , vbo := some (buildData p v.optsColor)
        , prog := pr } ∧
      getAssoc pr.hooks "frag_color" = some v.fragFunId ∧
      getAssoc pr.hooks "local_position" =
        some (if (buildData p v.optsColor).posCol.lastDim = 2 then xyFunId else xyzFunId) ∧
      paint w i = some
        ( w3.modifyVisual i (fun vv =>
            { vv with prog := vv.prog.setHook "map_local_to_nd" vv.optsTransform })
        , [ .bindHook "map_local_to_nd" v.optsTransform
          , .setLineWidth v.optsWidth
          , .draw "LINE_STRIP" ] ) := by
  obtain ⟨w3, pr, hreb, hvis, hfc, hlp⟩ := rebuildAll_spec w i v p hv hp hne
  refine ⟨w3, pr, hreb, hvis, hfc, hlp, ?_⟩
  simp [paint, hv, hp, hlen, hvbo, hreb, hvis]

theorem colorUpdate_perVertex_facts (w : World) (i : Nat) (v : LineVisualState)
    (d b : VertexData) (hv : w.visuals i = some v) (hd : v.dataArr = some d)
    (hb : v.vbo = some b) (hcol : d.colorCol.isSome)
    (hne : v.fragFunId ≠ v.supportFunId) :
    ∃ w2, colorInputUpdate w i = some w2 ∧
      w2.visuals i = some { v with
          prog := (v.prog.setHook "frag_color" v.fragFunId).addCallback "vert_post_hook"
            v.supportFunId } ∧
      getAssoc (w2.funDefs v.fragFunId) "rgba" = some w.nextVar ∧
      w2.varDefs w.nextVar = some { kind := "varying", typ := "vec4", value := .noValue } ∧
      getAssoc (w2.funDefs v.supportFunId) "input" = some (w.nextVar + 1) ∧
      w2.varDefs (w.nextVar + 1) =
        some { kind := "attribute", typ := "vec4", value := .column b "color" } ∧
      getAssoc (w2.funDefs v.supportFunId) "output" = some w.nextVar := by
  refine ⟨_, colorInputUpdate_perVertex_eq w i v d b hv hd hb hcol hne, ?_, ?_, ?_, ?_, ?_, ?_⟩
  · rw [visuals_setFunSlot, visuals_setSlotNew, visuals_modifyVisual_self,
      visuals_modifyVisual_self, visuals_setSlotNew, hv]
    rfl
  · rw [funDefs_setFunSlot_ne _ _ _ _ _ hne, funDefs_setSlotNew_ne _ _ _ _ _ hne,
      funDefs_modifyVisual, funDefs_modifyVisual, funDefs_setSlotNew_self]
    exact getAssoc_setAssoc_self _ _ _
  · rw [varDefs_setFunSlot]
    rw [varDefs_setSlotNew_old _ _ _ _ _ (show w.nextVar ≠ w.nextVar + 1 by omega)]
    rw [varDefs_modifyVisual, varDefs_modifyVisual]
    exact varDefs_setSlotNew_new _ _ _ _
  · rw [funDefs_setFunSlot_self]
    rw [getAssoc_setAssoc_ne _ "output" "input" _ (by decide)]
    rw [funDefs_setSlotNew_self]
    exact getAssoc_setAssoc_self _ _ _
  · rw [varDefs_setFunSlot]
    exact varDefs_setSlotNew_new _ _ _ _
  · rw [funDefs_setFunSlot_self]
    exact getAssoc_setAssoc_self _ _ _

theorem colorUpdate_uniform_facts (w : World) (i : Nat) (v : LineVisualState)
    (d b : VertexData) (hv : w.visuals i = some v) (hd : v.dataArr = some d)
    (hb : v.vbo = some b) (hcol : d.colorCol = none)
    (hne : v.fragFunId ≠ v.supportFunId) :
    ∃ w2, colorInputUpdate w i = some w2 ∧
      w2.visuals i = some { v with prog := v.prog.setHook "frag_color" v.fragFunId } ∧
      getAssoc (w2.funDefs v.fragFunId) "rgba" = some w.nextVar ∧
      w2.varDefs w.nextVar =
        some { kind := "uniform", typ := "vec4", value := .arrConst (npArray v.optsColor) } ∧
      w2.funDefs v.supportFunId = w.funDefs v.supportFunId ∧
      w2.nextVar = w.nextVar + 1 ∧
      (∀ j, j ≠ w.nextVar → w2.varDefs j = w.varDefs j) := by
  refine ⟨_, colorInputUpdate_uniform_eq w i v d b hv hd hb hcol, ?_, ?_, ?_, ?_, ?_, ?_⟩
  · rw [visuals_modifyVisual_self, visuals_setSlotNew, hv]
    rfl
  · rw [funDefs_modifyVisual, funDefs_setSlotNew_self]
    exact getAssoc_setAssoc_self _ _ _
  · rw [varDefs_modifyVisual]
    exact varDefs_setSlotNew_new _ _ _ _
  · rw [funDefs_modifyVisual]
    exact funDefs_setSlotNew_ne _ _ _ _ _ (Ne.symm hne)
  · rfl
  · intro j hj
    rw [varDefs_modifyVisual]
    exact varDefs_setSlotNew_old _ _ _ _ _ hj

theorem posUpdate_dim2_facts (w : World) (i : Nat) (v : LineVisualState)
    (d b : VertexData) (hv : w.visuals i = some v) (hd : v.dataArr = some d)
    (hb : v.vbo = some b) (hdim : d.posCol.lastDim = 2) :
    ∃ w2, posInputUpdate w i = some w2 ∧
      w2.visuals i = some { v with prog := v.prog.setHook "local_position" xyFunId } ∧
      (∀ j, j ≠ i → w2.visuals j = w.visuals j) ∧
      getAssoc (w2.funDefs xyFunId) "xy_pos" = some w.nextVar ∧
      w2.varDefs w.nextVar =
        some { kind := "attribute", typ := "vec2", value := .column b "pos" } ∧
      getAssoc (w2.funDefs xyFunId) "z_pos" = some (w.nextVar + 1) ∧
      w2.varDefs (w.nextVar + 1) =
        some { kind := "uniform", typ := "float", value := .scalar 0 } := by
  refine ⟨_, posInputUpdate_dim2_eq w i v d b hv hd hb hdim, ?_, ?_, ?_, ?_, ?_, ?_⟩
  · rw [visuals_modifyVisual_self, visuals_setSlotNew, visuals_setSlotNew, hv]
    rfl
  · intro j hj
    rw [visuals_modifyVisual_ne _ _ _ _ hj, visuals_setSlotNew, visuals_setSlotNew]
  · rw [funDefs_modifyVisual, funDefs_setSlotNew_self,
      getAssoc_setAssoc_ne _ "z_pos" "xy_pos" _ (by decide), funDefs_setSlotNew_self]
    exact getAssoc_setAssoc_self _ _ _
  · rw [varDefs_modifyVisual,
      varDefs_setSlotNew_old _ _ _ _ _ (show w.nextVar ≠ w.nextVar + 1 by omega)]
    exact varDefs_setSlotNew_new _ _ _ _
  · rw [funDefs_modifyVisual, funDefs_setSlotNew_self]
    exact getAssoc_setAssoc_self _ _ _
  · rw [varDefs_modifyVisual]
    exact varDefs_setSlotNew_new _ _ _ _

theorem posUpdate_other_facts (w : World) (i : Nat) (v : LineVisualState)
    (d b : VertexData) (hv : w.visuals i = some v) (hd : v.dataArr = some d)
    (hb : v.vbo = some b) (hdim : ¬ d.posCol.lastDim = 2) :
    ∃ w2, posInputUpdate w i = some w2 ∧
      w2.visuals i = some { v with prog := v.prog.setHook "local_position" xyzFunId } ∧
      (∀ j, j ≠ i → w2.visuals j = w.visuals j) ∧
      getAssoc (w2.funDefs xyzFunId) "xyz_pos" = some w.nextVar ∧
      w2.varDefs w.nextVar =
        some { kind := "attribute", typ := "vec3", value := .wholeBuffer b } := by
  refine ⟨_, posInputUpdate_other_eq w i v d b hv hd hb hdim, ?_, ?_, ?_, ?_⟩
  · rw [visuals_modifyVisual_self, visuals_setSlotNew, hv]
    rfl
  · intro j hj
    rw [visuals_modifyVisual_ne _ _ _ _ hj, visuals_setSlotNew]
  · rw [funDefs_modifyVisual, funDefs_setSlotNew_self]
    exact getAssoc_setAssoc_self _ _ _
  · rw [varDefs_modifyVisual]
    exact varDefs_setSlotNew_new _ _ _ _

/-! ### Claim C6 -/

/-- C6: every `set_data(pos, color, width)` call leaves each option whose
argument is None unchanged, overwrites each option whose argument is
non-None, and in all cases resets the derived vertex buffer `_vbo` to
None afterwards. -/
theorem C6_set_data_partial_update (w : World) (i : Nat) (v : LineVisualState)
    (pos : Option NDArray) (color : Option PyColor) (width : Option ℚ)
    (hv : w.visuals i = some v) :
    ∃ v2, (setData w i pos color width).visuals i = some v2 ∧
      (pos = none → v2.optsPos = v.optsPos) ∧
      (∀ p, pos = some p → v2.optsPos = some p) ∧
      (color = none → v2.optsColor = v.optsColor) ∧
      (∀ c, color = some c → v2.optsColor = c) ∧
      (width = none → v2.optsWidth = v.optsWidth) ∧
      (∀ x, width = some x → v2.optsWidth = x) ∧
      v2.vbo = none := by
  refine ⟨{ v with
      optsPos := match pos with | some p => some p | none => v.optsPos
    , optsColor := match color with | some c => c | none => v.optsColor
    , optsWidth := match width with | some x => x | none => v.optsWidth
    , vbo := none }, ?_, ?_, ?_, ?_, ?_, ?_, ?_, rfl⟩
  · simp only [setData]
    rw [visuals_modifyVisual_self, hv]
    rfl
  · rintro rfl
    rfl
  · rintro p rfl
    rfl
  · rintro rfl
    rfl
  · rintro c rfl
    rfl
  · rintro rfl
    rfl
  · rintro x rfl
    rfl

/-- Concrete visual used to witness C6. -/
def wC6 : World := newLineVisual world0 (some ⟨[3, 2], [0, 0, 1, 1, 2, 0]⟩) none none

/-- The visual stored at index 0 of `wC6`. -/
def vC6 : LineVisualState := (wC6.visuals 0).getD default

/-- Witness for C6: a concrete `set_data` call that keeps pos, overwrites
color and width, and clears the vertex buffer. -/
theorem C6_witness :
    ∃ v2, (setData wC6 0 none (some (.tup [1, 0, 0, 1])) (some 2)).visuals 0 = some v2 ∧
      ((none : Option NDArray) = none → v2.optsPos = vC6.optsPos) ∧
      (∀ p, (none : Option NDArray) = some p → v2.optsPos = some p) ∧
      ((some (PyColor.tup [1, 0, 0, 1]) : Option PyColor) = none →
        v2.optsColor = vC6.optsColor) ∧
      (∀ c, (some (PyColor.tup [1, 0, 0, 1]) : Option PyColor) = some c →
        v2.optsColor = c) ∧
      ((some (2 : ℚ) : Option ℚ) = none → v2.optsWidth = vC6.optsWidth) ∧
      (∀ x, (some (2 : ℚ) : Option ℚ) = some x → v2.optsWidth = x) ∧
      v2.vbo = none :=
  C6_set_data_partial_update wC6 0 vC6 none (some (.tup [1, 0, 0, 1])) (some 2) rfl

/-! ### Claim C4 -/

/-- C4: for built vertex data with trailing position dimension 2, the
position component binds the XY Function to `local_position`, with slot
`xy_pos` an attribute of type vec2 drawn from the buffer's 'pos' column
and slot `z_pos` a uniform float equal to 0.0; with trailing dimension 3
it binds the XYZ Function with slot `xyz_pos` an attribute of type vec3;
the two Functions are distinct and `local_position` holds exactly the one
selected after the update. -/
theorem C4_position_modes (w : World) (i : Nat) (v : LineVisualState)
    (d b : VertexData) (hv : w.visuals i = some v) (hd : v.dataArr = some d)
    (hb : v.vbo = some b) :
    xyFunId ≠ xyzFunId ∧
    (d.posCol.lastDim = 2 →
      ∃ w2, posInputUpdate w i = some w2 ∧
        hookOf w2 i "local_position" = some xyFunId ∧
        slotVar w2 xyFunId "xy_pos" =
          some { kind := "attribute", typ := "vec2", value := .column b "pos" } ∧
        slotVar w2 xyFunId "z_pos" =
          some { kind := "uniform", typ := "float", value := .scalar 0 }) ∧
    (d.posCol.lastDim = 3 →
      ∃ w2, posInputUpdate w i = some w2 ∧
        hookOf w2 i "local_position" = some xyzFunId ∧
        slotVar w2 xyzFunId "xyz_pos" =
          some { kind := "attribute", typ := "vec3", value := .wholeBuffer b }) := by
  refine ⟨by decide, ?_, ?_⟩
  · intro h2
    obtain ⟨w2, he, hvis, _, hxy, hxyv, hz, hzv⟩ :=
      posUpdate_dim2_facts w i v d b hv hd hb h2
    refine ⟨w2, he, ?_, ?_, ?_⟩
    · simp only [hookOf, hvis, Program.setHook]
      exact getAssoc_setAssoc_self _ _ _
    · simp only [slotVar, hxy, hxyv]
    · simp only [slotVar, hz, hzv]
  · intro h3
    obtain ⟨w2, he, hvis, _, hxyz, hxyzv⟩ :=
      posUpdate_other_facts w i v d b hv hd hb (by rw [h3]; decide)
    refine ⟨w2, he, ?_, ?_⟩
    · simp only [hookOf, hvis, Program.setHook]
      exact getAssoc_setAssoc_self _ _ _
    · simp only [slotVar, hxyz, hxyzv]

/-- Concrete world used to witness C4: a visual with 2-d positions whose
vertex buffer has been built. -/
def wC4 : World :=
  (buildVbo (newLineVisual world0 (some ⟨[3, 2], [0, 0, 1, 1, 2, 0]⟩) none none) 0).getD world0

/-- The visual stored at index 0 of `wC4`. -/
def vC4 : LineVisualState := (wC4.visuals 0).getD default

/-- The built vertex data of `vC4`. -/
def dC4 : VertexData := vC4.dataArr.getD default

/-- Witness for C4 at a concrete dim-2 visual. -/
theorem C4_witness :
    xyFunId ≠ xyzFunId ∧
    (dC4.posCol.lastDim = 2 →
      ∃ w2, posInputUpdate wC4 0 = some w2 ∧
        hookOf w2 0 "local_position" = some xyFunId ∧
        slotVar w2 xyFunId "xy_pos" =
          some { kind := "attribute", typ := "vec2", value := .column dC4 "pos" } ∧
        slotVar w2 xyFunId "z_pos" =
          some { kind := "uniform", typ := "float", value := .scalar 0 }) ∧
    (dC4.posCol.lastDim = 3 →
      ∃ w2, posInputUpdate wC4 0 = some w2 ∧
        hookOf w2 0 "local_position" = some xyzFunId ∧
        slotVar w2 xyzFunId "xyz_pos" =
          some { kind := "attribute", typ := "vec3", value := .wholeBuffer dC4 }) :=
  C4_position_modes wC4 0 vC4 dC4 dC4 rfl rfl rfl

/-! ### Claim C1 -/

/-- C1 (amended): `LinePosInputComponent.update` binds the Vec2Mode
Function when the trailing position dimension is 2 and the Vec3Mode
Function for any other trailing dimension; no shape error is raised
before VBO construction, which succeeds for every trailing dimension. -/
theorem C1_amended_dim2_else_vec3 (w : World) (i : Nat) (v : LineVisualState)
    (p : NDArray) (hv : w.visuals i = some v) (hp : v.optsPos = some p) :
    (buildVbo w i).isSome = true ∧
    (∀ w1 v1 d b, buildVbo w i = some w1 → w1.visuals i = some v1 →
      v1.dataArr = some d → v1.vbo = some b →
      ∃ w2, posInputUpdate w1 i = some w2 ∧
        hookOf w2 i "local_position" =
          some (if d.posCol.lastDim = 2 then xyFunId else xyzFunId)) := by
  constructor
  · rw [buildVbo_eq w i v p hv hp]
    rfl
  · intro w1 v1 d b hw1 hv1 hd hb
    obtain ⟨w2, he, hvis, _⟩ := posInputUpdate_spec w1 i v1 d b hv1 hd hb
    refine ⟨w2, he, ?_⟩
    simp only [hookOf, hvis, Program.setHook]
    exact getAssoc_setAssoc_self _ _ _

/-- Concrete world used for C1: a visual whose position array has trailing
dimension 4 (neither 2 nor 3). -/
def wC1 : World :=
  newLineVisual world0 (some ⟨[2, 4], [0, 0, 0, 0, 1, 1, 1, 1]⟩) none none

/-- The visual stored at index 0 of `wC1`. -/
def vC1 : LineVisualState := (wC1.visuals 0).getD default

/-- C1 counterexample: with trailing position dimension 4 the code raises
no shape error before VBO construction: `_build_vbo` succeeds, and the
position component binds the Vec3Mode (XYZ) Function to
`local_position`. -/
theorem C1_counterexample :
    (buildVbo wC1 0).isSome = true ∧
    ((rebuildAll wC1 0).map (fun w2 => hookOf w2 0 "local_position"))
      = some (some xyzFunId) :=
  ⟨rfl, rfl⟩

/-- Witness for the amended C1 at the trailing-dimension-4 visual. -/
theorem C1_witness :
    (buildVbo wC1 0).isSome = true ∧
    (∀ w1 v1 d b, buildVbo wC1 0 = some w1 → w1.visuals 0 = some v1 →
      v1.dataArr = some d → v1.vbo = some b →
      ∃ w2, posInputUpdate w1 0 = some w2 ∧
        hookOf w2 0 "local_position" =
          some (if d.posCol.lastDim = 2 then xyFunId else xyzFunId)) :=
  C1_amended_dim2_else_vec3 wC1 0 vC1 ⟨[2, 4], [0, 0, 0, 0, 1, 1, 1, 1]⟩ rfl rfl

/-! ### Claim C3 -/

/-- C3: for every valid color input, the color component selects
PerVertexColor (a varying-kind rgba binding) exactly when the structured
vertex data contains a 'color' field, and that field is present exactly
when the caller supplied a per-vertex color array (as opposed to a single
fixed tuple) at set_data time. -/
theorem C3_mode_selection (w : World) (i : Nat) (v : LineVisualState)
    (p : NDArray) (c : PyColor) (hvalid : validColor c = true)
    (hv : w.visuals i = some v)
    (hd : v.dataArr = some (buildData p c)) (hb : v.vbo = some (buildData p c))
    (hne : v.fragFunId ≠ v.supportFunId) :
    ((buildData p c).colorCol.isSome = perVertexColor c) ∧
    ∃ w2, colorInputUpdate w i = some w2 ∧
      (rgbaKind w2 i = some "varying" ↔ perVertexColor c = true) ∧
      (rgbaKind w2 i = some "uniform" ↔ perVertexColor c = false) := by
  have h1 : (buildData p c).colorCol.isSome = perVertexColor c := by
    cases c with
    | tup vals => simp [buildData, perVertexColor]
    | arr a =>
        rcases hs : a.shape with _ | ⟨k, _ | ⟨k2, _ | ⟨k3, rest⟩⟩⟩
        · simp [validColor, hs] at hvalid
        · simp [buildData, perVertexColor, hs]
        · simp [buildData, perVertexColor, hs]
        · simp [validColor, hs] at hvalid
  refine ⟨h1, ?_⟩
  by_cases hcol : (buildData p c).colorCol.isSome
  · obtain ⟨w2, he, hvis, hrgba, hvar, _, _, _⟩ :=
      colorUpdate_perVertex_facts w i v (buildData p c) (buildData p c) hv hd hb hcol hne
    refine ⟨w2, he, ?_, ?_⟩
    · rw [rgbaKind, hvis]
      simp only [slotVar, hrgba, hvar]
      rw [← h1]
      simp [hcol]
    · rw [rgbaKind, hvis]
      simp only [slotVar, hrgba, hvar]
      rw [← h1]
      simp [hcol]
  · have hcol' : (buildData p c).colorCol = none := by
      cases hcc : (buildData p c).colorCol
      · rfl
      · rw [hcc] at hcol
        simp at hcol
    obtain ⟨w2, he, hvis, hrgba, hvar, _, _, _⟩ :=
      colorUpdate_uniform_facts w i v (buildData p c) (buildData p c) hv hd hb hcol' hne
    refine ⟨w2, he, ?_, ?_⟩
    · rw [rgbaKind, hvis]
      simp only [slotVar, hrgba, hvar]
      rw [← h1]
      simp [hcol]
    · rw [rgbaKind, hvis]
      simp only [slotVar, hrgba, hvar]
      rw [← h1]
      simp [hcol]

/-- Concrete position array used to witness C3. -/
def pC3 : NDArray := ⟨[2, 2], [0, 0, 1, 1]⟩

/-- Concrete per-vertex color array used to witness C3. -/
def cC3 : PyColor := .arr ⟨[2, 4], [1, 0, 0, 1, 0, 1, 0, 1]⟩

/-- Concrete built world used to witness C3. -/
def wC3 : World :=
  (buildVbo (newLineVisual world0 (some pC3) (some cC3) none) 0).getD world0

/-- The visual stored at index 0 of `wC3`. -/
def vC3 : LineVisualState := (wC3.visuals 0).getD default

/-- Witness for C3 at a concrete per-vertex color visual. -/
theorem C3_witness :
    ((buildData pC3 cC3).colorCol.isSome = perVertexColor cC3) ∧
    ∃ w2, colorInputUpdate wC3 0 = some w2 ∧
      (rgbaKind w2 0 = some "varying" ↔ perVertexColor cC3 = true) ∧
      (rgbaKind w2 0 = some "uniform" ↔ perVertexColor cC3 = false) :=
  C3_mode_selection wC3 0 vC3 pC3 cC3 rfl rfl rfl rfl (by decide)

/-! ### Claim C5 -/

/-- C5: when the vertex data carries a per-vertex color field, the color
component binds the fragment function's rgba slot to a varying vec4,
assigns the fragment function to the frag_color hook, appends the
vertex-stage support function to the vert_post_hook chain, binds the
support function's input slot to the per-vertex color attribute (vec4
from the buffer's color column), and binds its output slot to the
identical varying variable held by the fragment function's rgba slot. -/
theorem C5_per_vertex_binding (w : World) (i : Nat) (v : LineVisualState)
    (d b : VertexData) (hv : w.visuals i = some v) (hd : v.dataArr = some d)
    (hb : v.vbo = some b) (hcol : d.colorCol.isSome)
    (hne : v.fragFunId ≠ v.supportFunId) :
    ∃ w2, colorInputUpdate w i = some w2 ∧
      slotVar w2 v.fragFunId "rgba" =
        some { kind := "varying", typ := "vec4", value := .noValue } ∧
      hookOf w2 i "frag_color" = some v.fragFunId ∧
      chainOf w2 i "vert_post_hook" =
        some ((getAssoc v.prog.chains "vert_post_hook").getD [] ++ [v.supportFunId]) ∧
      slotVar w2 v.supportFunId "input" =
        some { kind := "attribute", typ := "vec4", value := .column b "color" } ∧
      getAssoc (w2.funDefs v.supportFunId) "output" = some w.nextVar ∧
      getAssoc (w2.funDefs v.fragFunId) "rgba" = some w.nextVar := by
  obtain ⟨w2, he, hvis, hrgba, hvar, hin, hinv, hout⟩ :=
    colorUpdate_perVertex_facts w i v d b hv hd hb hcol hne
  refine ⟨w2, he, ?_, ?_, ?_, ?_, hout, hrgba⟩
  · simp only [slotVar, hrgba, hvar]
  · simp only [hookOf, hvis, Program.addCallback, Program.setHook]
    exact getAssoc_setAssoc_self _ _ _
  · simp only [chainOf, hvis, Program.addCallback, Program.setHook]
    exact getAssoc_setAssoc_self _ _ _
  · simp only [slotVar, hin, hinv]

/-- Concrete built world used to witness C5 (per-vertex colors). -/
def wC5 : World :=
  (buildVbo (newLineVisual world0 (some ⟨[2, 3], [0, 0, 0, 1, 1, 1]⟩)
    (some (.arr ⟨[2, 4], [1, 0, 0, 1, 0, 1, 0, 1]⟩)) none) 0).getD world0

/-- The visual stored at index 0 of `wC5`. -/
def vC5 : LineVisualState := (wC5.visuals 0).getD default

/-- The built vertex data of `vC5`. -/
def dC5 : VertexData := vC5.dataArr.getD default

/-- Witness for C5 at a concrete per-vertex color visual. -/
theorem C5_witness :
    ∃ w2, colorInputUpdate wC5 0 = some w2 ∧
      slotVar w2 vC5.fragFunId "rgba" =
        some { kind := "varying", typ := "vec4", value := .noValue } ∧
      hookOf w2 0 "frag_color" = some vC5.fragFunId ∧
      chainOf w2 0 "vert_post_hook" =
        some ((getAssoc vC5.prog.chains "vert_post_hook").getD [] ++ [vC5.supportFunId]) ∧
      slotVar w2 vC5.supportFunId "input" =
        some { kind := "attribute", typ := "vec4", value := .column dC5 "color" } ∧
      getAssoc (w2.funDefs vC5.supportFunId) "output" = some wC5.nextVar ∧
      getAssoc (w2.funDefs vC5.fragFunId) "rgba" = some wC5.nextVar :=
  C5_per_vertex_binding wC5 0 vC5 dC5 dC5 rfl rfl rfl (by decide) (by decide)

/-! ### Claim C9 -/

/-- C9 (amended): for a single fixed tuple color, update() binds the rgba
slot to a uniform vec4 whose stored value is np.array of the tuple exactly
as given (a 4-tuple yields the RGBA color; a 3-tuple keeps its 3
components, with no alpha defaulting anywhere in this code), assigns the
fragment function to frag_color, creates no varying (the only variable
allocated is the uniform itself) and adds no vertex-stage support
function (the chains are untouched). -/
theorem C9_amended_uniform_binding (w : World) (i : Nat) (v : LineVisualState)
    (d b : VertexData) (vals : List ℚ) (hv : w.visuals i = some v)
    (hd : v.dataArr = some d) (hb : v.vbo = some b) (hcol : d.colorCol = none)
    (hc : v.optsColor = .tup vals) (hne : v.fragFunId ≠ v.supportFunId) :
    ∃ w2, colorInputUpdate w i = some w2 ∧
      slotVar w2 v.fragFunId "rgba" =
        some { kind := "uniform", typ := "vec4", value := .arrConst ⟨[vals.length], vals⟩ } ∧
      hookOf w2 i "frag_color" = some v.fragFunId ∧
      chainOf w2 i "vert_post_hook" = getAssoc v.prog.chains "vert_post_hook" ∧
      w2.funDefs v.supportFunId = w.funDefs v.supportFunId ∧
      w2.nextVar = w.nextVar + 1 ∧
      w2.varDefs w.nextVar =
        some { kind := "uniform", typ := "vec4", value := .arrConst ⟨[vals.length], vals⟩ } ∧
      (∀ j, j ≠ w.nextVar → w2.varDefs j = w.varDefs j) := by
  obtain ⟨w2, he, hvis, hrgba, hvar, hsup, hnv, hold⟩ :=
    colorUpdate_uniform_facts w i v d b hv hd hb hcol hne
  have hnp : npArray v.optsColor = ⟨[vals.length], vals⟩ := by
    rw [hc]
    rfl
  refine ⟨w2, he, ?_, ?_, ?_, hsup, hnv, ?_, hold⟩
  · simp only [slotVar, hrgba, hvar, hnp]
  · simp only [hookOf, hvis, Program.setHook]
    exact getAssoc_setAssoc_self _ _ _
  · simp only [chainOf, hvis, Program.setHook]
  · rw [hvar, hnp]

/-- Concrete world used for the C9 counterexample: a 3-tuple color. -/
def wC9 : World :=
  newLineVisual world0 (some ⟨[2, 2], [0, 0, 1, 1]⟩) (some (.tup [1, 0, 0])) none

/-- C9 counterexample: with the 3-tuple color (1,0,0) the uniform bound to
rgba stores the 3-component array passed through np.array unchanged, not
an alpha-defaulted 4-component constant color. -/
theorem C9_counterexample :
    ((paint wC9 0).map (fun r => rgbaValue r.1 0))
        = some (some (.arrConst ⟨[3], [1, 0, 0]⟩)) ∧
    ((paint wC9 0).map (fun r => rgbaValue r.1 0))
        ≠ some (some (.arrConst ⟨[4], [1, 0, 0, 1]⟩)) := by
  constructor
  · rfl
  · decide

/-- Concrete built world used to witness the amended C9 (4-tuple color). -/
def wC9w : World :=
  (buildVbo (newLineVisual world0 (some ⟨[2, 2], [0, 0, 1, 1]⟩)
    (some (.tup [1, 0, 0, 1])) none) 0).getD world0

/-- The visual stored at index 0 of `wC9w`. -/
def vC9 : LineVisualState := (wC9w.visuals 0).getD default

/-- The built vertex data of `vC9`. -/
def dC9 : VertexData := vC9.dataArr.getD default

/-- Witness for the amended C9 at a concrete 4-tuple color visual. -/
theorem C9_witness :
    ∃ w2, colorInputUpdate wC9w 0 = some w2 ∧
      slotVar w2 vC9.fragFunId "rgba" =
        some { kind := "uniform", typ := "vec4"
             , value := .arrConst ⟨[List.length [(1 : ℚ), 0, 0, 1]], [1, 0, 0, 1]⟩ } ∧
      hookOf w2 0 "frag_color" = some vC9.fragFunId ∧
      chainOf w2 0 "vert_post_hook" = getAssoc vC9.prog.chains "vert_post_hook" ∧
      w2.funDefs vC9.supportFunId = wC9w.funDefs vC9.supportFunId ∧
      w2.nextVar = wC9w.nextVar + 1 ∧
      w2.varDefs wC9w.nextVar =
        some { kind := "uniform", typ := "vec4"
             , value := .arrConst ⟨[List.length [(1 : ℚ), 0, 0, 1]], [1, 0, 0, 1]⟩ } ∧
      (∀ j, j ≠ wC9w.nextVar → w2.varDefs j = wC9w.varDefs j) :=
  C9_amended_uniform_binding wC9w 0 vC9 dC9 dC9 [1, 0, 0, 1] rfl rfl rfl rfl rfl (by decide)

/-! ### Claim C2 -/

/-- C2 (amended): an update() in UniformColor mode replaces the frag_color
binding and rebinds rgba to a uniform, but it does not remove a support
function that a prior PerVertexColor update appended to the
vert_post_hook chain: the support function is still a member of the chain
after the UniformColor update. -/
theorem C2_amended_residual_support (w : World) (i : Nat) (v : LineVisualState)
    (d b : VertexData) (hv : w.visuals i = some v) (hd : v.dataArr = some d)
    (hb : v.vbo = some b) (hcol : d.colorCol = none)
    (hne : v.fragFunId ≠ v.supportFunId)
    (hmem : v.supportFunId ∈ (getAssoc v.prog.chains "vert_post_hook").getD []) :
    ∃ w2, colorInputUpdate w i = some w2 ∧
      rgbaKind w2 i = some "uniform" ∧
      hookOf w2 i "frag_color" = some v.fragFunId ∧
      supportInChain w2 i = some true := by
  obtain ⟨w2, he, hvis, hrgba, hvar, _, _, _⟩ :=
    colorUpdate_uniform_facts w i v d b hv hd hb hcol hne
  refine ⟨w2, he, ?_, ?_, ?_⟩
  · rw [rgbaKind, hvis]
    simp only [slotVar, hrgba, hvar]
    rfl
  · simp only [hookOf, hvis, Program.setHook]
    exact getAssoc_setAssoc_self _ _ _
  · simp only [supportInChain, hvis, Program.setHook]
    rw [decide_eq_true hmem]

/-- Concrete world for C2: a visual created with per-vertex colors. -/
def wC2a : World :=
  newLineVisual world0 (some ⟨[2, 2], [0, 0, 1, 1]⟩)
    (some (.arr ⟨[2, 4], [1, 0, 0, 1, 0, 1, 0, 1]⟩)) none

/-- The world after the first paint of `wC2a` (PerVertexColor mode bound,
support function appended to vert_post_hook). -/
def wC2b : World := ((paint wC2a 0).map Prod.fst).getD world0

/-- The world after switching the color option to a fixed uniform tuple
(invalidating the vertex buffer). -/
def wC2c : World := setData wC2b 0 none (some (.tup [0, 0, 1, 1])) none

/-- C2 counterexample: after switching per-vertex to uniform color and
repainting (so the second update ran in UniformColor mode, as the
"uniform" rgba kind shows), the support function from the earlier
PerVertexColor mode is still bound in the vert_post_hook chain. -/
theorem C2_counterexample :
    ((paint wC2c 0).map (fun r => (rgbaKind r.1 0, supportInChain r.1 0)))
      = some (some "uniform", some true) := by
  rfl

/-- The world of `wC2c` with the vertex buffer rebuilt, used to witness
the amended C2. -/
def wC2w : World := (buildVbo wC2c 0).getD world0

/-- The visual stored at index 0 of `wC2w`. -/
def vC2 : LineVisualState := (wC2w.visuals 0).getD default

/-- The built vertex data of `vC2`. -/
def dC2 : VertexData := vC2.dataArr.getD default

/-- Witness for the amended C2 at the concrete mode-switched visual. -/
theorem C2_witness :
    ∃ w2, colorInputUpdate wC2w 0 = some w2 ∧
      rgbaKind w2 0 = some "uniform" ∧
      hookOf w2 0 "frag_color" = some vC2.fragFunId ∧
      supportInChain w2 0 = some true :=
  C2_amended_residual_support wC2w 0 vC2 dC2 dC2 rfl rfl rfl rfl (by decide) (by decide)

/-! ### Claim C10 -/

/-- C10: the two position Functions are class-level attributes shared by
all position components: updating visual j's position component rebinds
the slots of the single shared XY Function object, and a second visual i
whose `local_position` hook refers to that same object now sees j's
buffer through its own binding (mutation as a side effect), while its
hook entry itself is untouched. -/
theorem C10_shared_class_functions (w : World) (i j : Nat) (vi vj : LineVisualState)
    (dj bj : VertexData) (hij : i ≠ j) (hi : w.visuals i = some vi)
    (hloc : getAssoc vi.prog.hooks "local_position" = some xyFunId)
    (hj : w.visuals j = some vj) (hdj : vj.dataArr = some dj) (hbj : vj.vbo = some bj)
    (hdim : dj.posCol.lastDim = 2) :
    ∃ w2, posInputUpdate w j = some w2 ∧
      hookOf w2 i "local_position" = some xyFunId ∧
      slotVar w2 xyFunId "xy_pos" =
        some { kind := "attribute", typ := "vec2", value := .column bj "pos" } := by
  obtain ⟨w2, he, _, hother, hxy, hxyv, _, _⟩ :=
    posUpdate_dim2_facts w j vj dj bj hj hdj hbj hdim
  refine ⟨w2, he, ?_, ?_⟩
  · have hvi2 : w2.visuals i = some vi := by
      rw [hother i hij, hi]
    simp only [hookOf, hvi2, hloc]
  · simp only [slotVar, hxy, hxyv]

/-- First visual for the C10 witness (2-d positions). -/
def wC10a : World := newLineVisual world0 (some ⟨[2, 2], [0, 0, 1, 1]⟩) none none

/-- Second visual added to the same world (its own 2-d positions). -/
def wC10b : World := newLineVisual wC10a (some ⟨[2, 2], [5, 5, 6, 6]⟩) none none

/-- The world after painting visual 0, whose `local_position` hook now
holds the shared XY Function. -/
def wC10c : World := ((paint wC10b 0).map Prod.fst).getD world0

/-- The world after also building visual 1's vertex buffer. -/
def wC10 : World := (buildVbo wC10c 1).getD world0

/-- Visual 0 of `wC10`. -/
def vC10i : LineVisualState := (wC10.visuals 0).getD default

/-- Visual 1 of `wC10`. -/
def vC10j : LineVisualState := (wC10.visuals 1).getD default

/-- The built vertex data of visual 1. -/
def dC10 : VertexData := vC10j.dataArr.getD default

/-- Witness for C10: updating visual 1 redirects the shared XY Function's
`xy_pos` slot to visual 1's buffer while visual 0 still points at that
Function. -/
theorem C10_witness :
    ∃ w2, posInputUpdate wC10 1 = some w2 ∧
      hookOf w2 0 "local_position" = some xyFunId ∧
      slotVar w2 xyFunId "xy_pos" =
        some { kind := "attribute", typ := "vec2", value := .column dC10 "pos" } :=
  C10_shared_class_functions wC10 0 1 vC10i vC10j dC10 dC10 (by decide) rfl rfl rfl rfl
    rfl rfl

/-! ### Claim C7 -/

/-- C7: paint() never issues a draw while the VBO is None: with a None or
empty pos option it returns without any draw action; when _vbo is None it
is rebuilt from the current options and both components' update() methods
run, and the draw acts on exactly their output state, whose vertex buffer
is the one built from the latest options; when _vbo is already present
the draw uses that buffer. -/
theorem C7_paint_vbo_invariant (w : World) (i : Nat) (v : LineVisualState)
    (hv : w.visuals i = some v) (hne : v.fragFunId ≠ v.supportFunId) :
    (v.optsPos = none → paint w i = some (w, [])) ∧
    (∀ p, v.optsPos = some p → p.len = 0 → paint w i = some (w, [])) ∧
    (∀ p, v.optsPos = some p → ¬ p.len = 0 → v.vbo = none →
      ∃ w1 w2 w3 acts, buildVbo w i = some w1 ∧ posInputUpdate w1 i = some w2 ∧
        colorInputUpdate w2 i = some w3 ∧
        paint w i = some
          ( w3.modifyVisual i (fun vv =>
              { vv with prog := vv.prog.setHook "map_local_to_nd" vv.optsTransform })
          , acts ) ∧
        PaintAction.draw "LINE_STRIP" ∈ acts ∧
        (∃ vf, (w3.modifyVisual i (fun vv =>
              { vv with prog := vv.prog.setHook "map_local_to_nd" vv.optsTransform })).visuals i
            = some vf ∧ vf.vbo = some (buildData p v.optsColor))) ∧
    (∀ p b, v.optsPos = some p → ¬ p.len = 0 → v.vbo = some b →
      ∃ wf acts, paint w i = some (wf, acts) ∧ PaintAction.draw "LINE_STRIP" ∈ acts ∧
        ∃ vf, wf.visuals i = some vf ∧ vf.vbo = some b) := by
  refine ⟨?_, ?_, ?_, ?_⟩
  · intro hp
    exact paint_posNone_eq w i v hv hp
  · intro p hp hlen
    exact paint_empty_eq w i v p hv hp hlen
  · intro p hp hlen hvbo
    have hbv := buildVbo_eq w i v p hv hp
    have hvB : (w.modifyVisual i (fun vv =>
        { vv with dataArr := some (buildData p v.optsColor)
                , vbo := some (buildData p v.optsColor) })).visuals i
        = some { v with dataArr := some (buildData p v.optsColor)
                      , vbo := some (buildData p v.optsColor) } := by
      rw [visuals_modifyVisual_self, hv]
      rfl
    obtain ⟨w2, hpos, hvis2, _⟩ :=
      posInputUpdate_spec _ i _ (buildData p v.optsColor) (buildData p v.optsColor) hvB rfl rfl
    obtain ⟨w3, hcolu, hvis3, _⟩ :=
      colorInputUpdate_spec w2 i _ (buildData p v.optsColor) (buildData p v.optsColor) hvis2
        rfl rfl hne
    have hreb : rebuildAll w i = some w3 := by
      simp only [rebuildAll, hbv, hpos, hcolu]
    refine ⟨_, w2, w3,
      [ .bindHook "map_local_to_nd" v.optsTransform
      , .setLineWidth v.optsWidth
      , .draw "LINE_STRIP" ], hbv, hpos, hcolu, ?_, ?_, ?_⟩
    · simp [paint, hv, hp, hlen, hvbo, hreb, hvis3]
    · simp
    · rw [visuals_modifyVisual_self, hvis3]
      exact ⟨_, rfl, rfl⟩
  · intro p b hp hlen hvbo
    refine ⟨_, _, paint_vboSome_eq w i v p b hv hp hlen hvbo, ?_, ?_⟩
    · simp
    · rw [visuals_modifyVisual_self, hv]
      exact ⟨_, rfl, hvbo⟩

/-- Concrete world used to witness C7. -/
def wC7 : World := newLineVisual world0 (some ⟨[2, 2], [0, 0, 1, 1]⟩) none none

/-- The visual stored at index 0 of `wC7`. -/
def vC7 : LineVisualState := (wC7.visuals 0).getD default

/-- Witness for C7 at a concrete fresh visual. -/
theorem C7_witness :
    (vC7.optsPos = none → paint wC7 0 = some (wC7, [])) ∧
    (∀ p, vC7.optsPos = some p → p.len = 0 → paint wC7 0 = some (wC7, [])) ∧
    (∀ p, vC7.optsPos = some p → ¬ p.len = 0 → vC7.vbo = none →
      ∃ w1 w2 w3 acts, buildVbo wC7 0 = some w1 ∧ posInputUpdate w1 0 = some w2 ∧
        colorInputUpdate w2 0 = some w3 ∧
        paint wC7 0 = some
          ( w3.modifyVisual 0 (fun vv =>
              { vv with prog := vv.prog.setHook "map_local_to_nd" vv.optsTransform })
          , acts ) ∧
        PaintAction.draw "LINE_STRIP" ∈ acts ∧
        (∃ vf, (w3.modifyVisual 0 (fun vv =>
              { vv with prog := vv.prog.setHook "map_local_to_nd" vv.optsTransform })).visuals 0
            = some vf ∧ vf.vbo = some (buildData p vC7.optsColor))) ∧
    (∀ p b, vC7.optsPos = some p → ¬ p.len = 0 → vC7.vbo = some b →
      ∃ wf acts, paint wC7 0 = some (wf, acts) ∧ PaintAction.draw "LINE_STRIP" ∈ acts ∧
        ∃ vf, wf.visuals 0 = some vf ∧ vf.vbo = some b) :=
  C7_paint_vbo_invariant wC7 0 vC7 rfl (by decide)

/-! ### Claim C8 -/

/-- C8: every paint() that reaches the draw performs exactly this action
sequence: rebind the map_local_to_nd hook to the current transform's
shader map, set the line width to the current width option, and draw with
the LINE_STRIP primitive; afterwards the program's map_local_to_nd hook
holds the transform's shader-map Function. -/
theorem C8_draw_sequence (w : World) (i : Nat) (v : LineVisualState) (p : NDArray)
    (hv : w.visuals i = some v) (hp : v.optsPos = some p) (hlen : ¬ p.len = 0)
    (hne : v.fragFunId ≠ v.supportFunId) :
    ∃ wf, paint w i = some
        ( wf
        , [ .bindHook "map_local_to_nd" v.optsTransform
          , .setLineWidth v.optsWidth
          , .draw "LINE_STRIP" ] ) ∧
      hookOf wf i "map_local_to_nd" = some v.optsTransform := by
  cases hvbo : v.vbo with
  | none =>
      obtain ⟨w3, pr, hreb, hvis, _, _, hpaint⟩ :=
        paint_rebuild_spec w i v p hv hp hlen hvbo hne
      refine ⟨_, hpaint, ?_⟩
      simp only [hookOf, visuals_modifyVisual_self, hvis, Option.map_some', Program.setHook]
      exact getAssoc_setAssoc_self _ _ _
  | some b =>
      refine ⟨_, paint_vboSome_eq w i v p b hv hp hlen hvbo, ?_⟩
      simp only [hookOf, visuals_modifyVisual_self, hv, Option.map_some', Program.setHook]
      exact getAssoc_setAssoc_self _ _ _

/-- Concrete world used to witness C8. -/
def wC8 : World := newLineVisual world0 (some ⟨[3, 3], [0, 0, 0, 1, 1, 1, 2, 0, 0]⟩)
  (some (.tup [1, 0, 0, 1])) (some 2)

/-- The visual stored at index 0 of `wC8`. -/
def vC8 : LineVisualState := (wC8.visuals 0).getD default

/-- Witness for C8 at a concrete visual with width 2. -/
theorem C8_witness :
    ∃ wf, paint wC8 0 = some
        ( wf
        , [ .bindHook "map_local_to_nd" vC8.optsTransform
          , .setLineWidth vC8.optsWidth
          , .draw "LINE_STRIP" ] ) ∧
      hookOf wf 0 "map_local_to_nd" = some vC8.optsTransform :=
  C8_draw_sequence wC8 0 vC8 ⟨[3, 3], [0, 0, 0, 1, 1, 1, 2, 0, 0]⟩ rfl rfl (by decide)
    (by decide)
